import Mathlib

/-!
Verification of the tick → multi-timeframe-bar pipeline of the
Quant-Dashboard repository: a shallow embedding of `src/normalization.py`,
`src/resampling.py`, `src/database.py` and `src/stream_manager.py`,
together with theorems settling the specification claims about them.

Python floats are modelled as rationals, epoch timestamps as rationals
(seconds, with sub-second fraction), aligned bar timestamps as integers
(the code stores them as ISO-8601 strings of whole seconds, an injective
image of the integer epoch second), and fallible code returns `Option`
(`none` models an exception reaching, or being swallowed at, that point).
-/

/-- A normalized trade event, mirroring the dataclass `Tick` of
`src/normalization.py`.  `timestamp` is the epoch time in seconds
(the code stores the equivalent ISO-8601 string). -/
structure Tick where
  symbol : String
  timestamp : ℚ
  price : ℚ
  size : ℚ
deriving DecidableEq, Repr

/-- One OHLCV bar, mirroring the bar dict built by `Resampler._new_bar`.
`timestamp` is the aligned interval boundary in epoch seconds. -/
structure Bar where
  symbol : String
  timestamp : ℤ
  open_ : ℚ
  high : ℚ
  low : ℚ
  close : ℚ
  volume : ℚ
deriving DecidableEq, Repr

/-- `Resampler._get_interval_seconds`: interval length of a timeframe key,
with the source's silent fallback `return 60` for unknown keys. -/
def get_interval_seconds (timeframe : String) : ℤ :=
  if timeframe = "1s" then 1
  else if timeframe = "1m" then 60
  else if timeframe = "5m" then 300
  else 60

/-- `Resampler._align_time`: drop the sub-second part
(`replace(microsecond=0)` followed by `int(...)` is the floor of the epoch
seconds) and floor to the nearest interval boundary.  Python's `%` on a
positive divisor agrees with `Int.emod`. -/
def align_time (ts : ℚ) (timeframe : String) : ℤ :=
  let seconds := get_interval_seconds timeframe
  let total_seconds := Rat.floor ts
  total_seconds - total_seconds % seconds

/-- The `Resampler.current_bars` state: timeframe → symbol → current open
bar (the nested dicts of the source, as a total function with `none` for
absent keys). -/
def Resampler : Type := String → String → Option Bar

/-- A freshly constructed `Resampler()`: no open bars. -/
def fresh_resampler : Resampler := fun _ _ => none

/-- Store a bar in the `current_bars` slot of one (timeframe, symbol). -/
def set_bar (s : Resampler) (tf sym : String) (b : Bar) : Resampler :=
  fun tf' sym' => if tf' = tf ∧ sym' = sym then some b else s tf' sym'

/-- `Resampler._new_bar`. -/
def new_bar (t : Tick) (timestamp : ℤ) : Bar :=
  { symbol := t.symbol
    timestamp := timestamp
    open_ := t.price
    high := t.price
    low := t.price
    close := t.price
    volume := t.size }

/-- `Resampler._update_bar`. -/
def update_bar (b : Bar) (t : Tick) : Bar :=
  { b with
    high := max b.high t.price
    low := min b.low t.price
    close := t.price
    volume := b.volume + t.size }

/-- The body of `Resampler.process_tick`'s `for tf in [...]` loop for one
timeframe: returns the bars completed by this tick for this timeframe
(`[]` or one) together with the updated state. -/
def process_tf (t : Tick) (s : Resampler) (tf : String) :
    List (String × Bar) × Resampler :=
  let aligned_ts := align_time t.timestamp tf
  match s tf t.symbol with
  | some current_bar =>
    if aligned_ts ≠ current_bar.timestamp then
      ([(tf, current_bar)], set_bar s tf t.symbol (new_bar t aligned_ts))
    else
      ([], set_bar s tf t.symbol (update_bar current_bar t))
  | none =>
    ([], set_bar s tf t.symbol (new_bar t aligned_ts))

/-- `Resampler.process_tick`: run the loop over `['1s', '1m', '5m']`,
accumulating completed bars in iteration order. -/
def process_tick (s : Resampler) (t : Tick) :
    List (String × Bar) × Resampler :=
  let r1 := process_tf t s "1s"
  let r2 := process_tf t r1.2 "1m"
  let r3 := process_tf t r2.2 "5m"
  (r1.1 ++ r2.1 ++ r3.1, r3.2)

/-! ### Structural lemmas about `process_tf` / `process_tick` -/

/-- The bars completed by one timeframe iteration. -/
def completed_of (t : Tick) (s : Resampler) (tf : String) : List (String × Bar) :=
  match s tf t.symbol with
  | some b => if align_time t.timestamp tf ≠ b.timestamp then [(tf, b)] else []
  | none => []

/-- The open bar in one (timeframe, symbol) slot after one iteration. -/
def next_slot (t : Tick) (tf : String) : Option Bar → Bar
  | some b =>
    if align_time t.timestamp tf ≠ b.timestamp then
      new_bar t (align_time t.timestamp tf)
    else update_bar b t
  | none => new_bar t (align_time t.timestamp tf)

theorem process_tf_fst (t : Tick) (s : Resampler) (tf : String) :
    (process_tf t s tf).1 = completed_of t s tf := by
  unfold process_tf completed_of
  cases s tf t.symbol with
  | none => rfl
  | some b => by_cases h : align_time t.timestamp tf ≠ b.timestamp <;> simp [h]

theorem process_tf_slot (t : Tick) (s : Resampler) (tf : String) :
    (process_tf t s tf).2 tf t.symbol = some (next_slot t tf (s tf t.symbol)) := by
  unfold process_tf next_slot
  cases s tf t.symbol with
  | none => simp [set_bar]
  | some b =>
    by_cases h : align_time t.timestamp tf ≠ b.timestamp <;> simp [h, set_bar]

theorem process_tf_frame (t : Tick) (s : Resampler) (tf tf' sym' : String)
    (h : tf' ≠ tf ∨ sym' ≠ t.symbol) :
    (process_tf t s tf).2 tf' sym' = s tf' sym' := by
  have hcond : ¬(tf' = tf ∧ sym' = t.symbol) := fun hc =>
    h.elim (fun hh => hh hc.1) (fun hh => hh hc.2)
  unfold process_tf
  cases s tf t.symbol with
  | none => simp [set_bar, hcond]
  | some b =>
    by_cases hne : align_time t.timestamp tf ≠ b.timestamp <;>
      simp [hne, set_bar, hcond]

theorem process_tick_fst (s : Resampler) (t : Tick) :
    (process_tick s t).1 =
      completed_of t s "1s"
        ++ completed_of t (process_tf t s "1s").2 "1m"
        ++ completed_of t (process_tf t (process_tf t s "1s").2 "1m").2 "5m" := by
  dsimp only [process_tick]
  rw [process_tf_fst, process_tf_fst, process_tf_fst]

theorem process_tick_snd (s : Resampler) (t : Tick) :
    (process_tick s t).2 =
      (process_tf t (process_tf t (process_tf t s "1s").2 "1m").2 "5m").2 := rfl

/-- Evaluating the post-state of `process_tick` at any slot of the three
timeframes: later iterations do not touch earlier timeframes' slots, so
each slot sees the original state. -/
theorem process_tick_slot_1s (s : Resampler) (t : Tick) :
    (process_tick s t).2 "1s" t.symbol = some (next_slot t "1s" (s "1s" t.symbol)) := by
  rw [process_tick_snd]
  rw [process_tf_frame t _ "5m" "1s" t.symbol (Or.inl (by decide))]
  rw [process_tf_frame t _ "1m" "1s" t.symbol (Or.inl (by decide))]
  exact process_tf_slot t s "1s"

theorem process_tick_slot_1m (s : Resampler) (t : Tick) :
    (process_tick s t).2 "1m" t.symbol
      = some (next_slot t "1m" (s "1m" t.symbol)) := by
  rw [process_tick_snd]
  rw [process_tf_frame t _ "5m" "1m" t.symbol (Or.inl (by decide))]
  rw [process_tf_slot]
  rw [process_tf_frame t _ "1s" "1m" t.symbol (Or.inl (by decide))]

theorem process_tick_slot_5m (s : Resampler) (t : Tick) :
    (process_tick s t).2 "5m" t.symbol
      = some (next_slot t "5m" (s "5m" t.symbol)) := by
  rw [process_tick_snd]
  rw [process_tf_slot]
  rw [process_tf_frame t _ "1m" "5m" t.symbol (Or.inl (by decide))]
  rw [process_tf_frame t _ "1s" "5m" t.symbol (Or.inl (by decide))]

theorem process_tick_frame (s : Resampler) (t : Tick) (tf' sym' : String)
    (h : (tf' ≠ "1s" ∧ tf' ≠ "1m" ∧ tf' ≠ "5m") ∨ sym' ≠ t.symbol) :
    (process_tick s t).2 tf' sym' = s tf' sym' := by
  rw [process_tick_snd]
  rcases h with ⟨h1, h2, h3⟩ | h
  · rw [process_tf_frame t _ "5m" tf' sym' (Or.inl h3),
      process_tf_frame t _ "1m" tf' sym' (Or.inl h2),
      process_tf_frame t _ "1s" tf' sym' (Or.inl h1)]
  · rw [process_tf_frame t _ "5m" tf' sym' (Or.inr h),
      process_tf_frame t _ "1m" tf' sym' (Or.inr h),
      process_tf_frame t _ "1s" tf' sym' (Or.inr h)]

theorem completed_of_frame (t : Tick) (s : Resampler) (tf tf' : String)
    (h : tf' ≠ tf) :
    completed_of t (process_tf t s tf).2 tf' = completed_of t s tf' := by
  unfold completed_of
  rw [process_tf_frame t s tf tf' t.symbol (Or.inl h)]

/-- At most one bar can be completed per timeframe per call: the completed
bars of one iteration, as an optional bar. -/
def completed_opt (t : Tick) (s : Resampler) (tf : String) : Option Bar :=
  match s tf t.symbol with
  | some b => if align_time t.timestamp tf ≠ b.timestamp then some b else none
  | none => none

/-- Render an optional completed bar as its contribution to the output. -/
def opt_completed (tf : String) : Option Bar → List (String × Bar)
  | some b => [(tf, b)]
  | none => []

theorem completed_of_eq_opt (t : Tick) (s : Resampler) (tf : String) :
    completed_of t s tf = opt_completed tf (completed_opt t s tf) := by
  unfold completed_of completed_opt
  cases s tf t.symbol with
  | none => rfl
  | some b =>
    by_cases h : align_time t.timestamp tf ≠ b.timestamp <;> simp [h, opt_completed]

theorem filter_opt_completed_ne (tf tf' : String) (o : Option Bar) (h : tf' ≠ tf) :
    (opt_completed tf' o).filter (fun p => decide (p.1 = tf)) = [] := by
  cases o <;> simp [opt_completed, h]

theorem filter_opt_completed_eq (tf : String) (o : Option Bar) :
    (opt_completed tf o).filter (fun p => decide (p.1 = tf)) = opt_completed tf o := by
  cases o <;> simp [opt_completed]

/-- The completed bars of a `process_tick` call carrying a given timeframe
tag are exactly the bars completed by that timeframe's own iteration,
evaluated on the pre-call state. -/
theorem process_tick_filter (s : Resampler) (t : Tick) (tf : String)
    (htf : tf = "1s" ∨ tf = "1m" ∨ tf = "5m") :
    ((process_tick s t).1).filter (fun p => decide (p.1 = tf))
      = opt_completed tf (completed_opt t s tf) := by
  rw [process_tick_fst,
    completed_of_frame t _ "1m" "5m" (by decide),
    completed_of_frame t _ "1s" "5m" (by decide),
    completed_of_frame t _ "1s" "1m" (by decide),
    completed_of_eq_opt, completed_of_eq_opt, completed_of_eq_opt,
    List.filter_append, List.filter_append]
  rcases htf with h | h | h <;> subst h
  · rw [filter_opt_completed_eq,
      filter_opt_completed_ne _ "1m" _ (by decide),
      filter_opt_completed_ne _ "5m" _ (by decide), List.append_nil, List.append_nil]
  · rw [filter_opt_completed_eq,
      filter_opt_completed_ne _ "1s" _ (by decide),
      filter_opt_completed_ne _ "5m" _ (by decide), List.append_nil, List.nil_append]
  · rw [filter_opt_completed_eq,
      filter_opt_completed_ne _ "1s" _ (by decide),
      filter_opt_completed_ne _ "1m" _ (by decide), List.nil_append, List.nil_append]

/-- The post-call open-bar slot of any of the three timeframes for the
tick's symbol is the one-iteration `next_slot` of the pre-call slot. -/
theorem process_tick_slot (s : Resampler) (t : Tick) (tf : String)
    (htf : tf = "1s" ∨ tf = "1m" ∨ tf = "5m") :
    (process_tick s t).2 tf t.symbol = some (next_slot t tf (s tf t.symbol)) := by
  rcases htf with h | h | h <;> subst h
  · exact process_tick_slot_1s s t
  · exact process_tick_slot_1m s t
  · exact process_tick_slot_5m s t

/-- C3: a single `process_tick` call evaluates all timeframes independently
and may complete zero, one, or several bars — at most one per timeframe —
and the returned list is always (1s contribution) ++ (1m contribution) ++
(5m contribution), each contribution empty or a singleton tagged with its
timeframe: fixed shortest-to-longest emission order. -/
theorem c3_emission_order (s : Resampler) (t : Tick) :
    ∃ o1s o1m o5m : Option Bar,
      (process_tick s t).1 =
        opt_completed "1s" o1s ++ opt_completed "1m" o1m ++ opt_completed "5m" o5m :=
  ⟨completed_opt t s "1s",
   completed_opt t (process_tf t s "1s").2 "1m",
   completed_opt t (process_tf t (process_tf t s "1s").2 "1m").2 "5m",
   by rw [process_tick_fst, completed_of_eq_opt, completed_of_eq_opt,
        completed_of_eq_opt]⟩

/-- C2: whenever the tick's aligned boundary for one of the three
timeframes differs from the boundary of the currently open bar for that
(timeframe, symbol) — including a strictly earlier, out-of-order boundary —
`process_tick` emits that open bar as completed and replaces the slot with
a fresh bar built from the tick at the tick's aligned boundary. -/
theorem c2_boundary_change (s : Resampler) (t : Tick) (tf : String) (b : Bar)
    (htf : tf = "1s" ∨ tf = "1m" ∨ tf = "5m")
    (hb : s tf t.symbol = some b)
    (hne : align_time t.timestamp tf ≠ b.timestamp) :
    (tf, b) ∈ (process_tick s t).1
    ∧ (process_tick s t).2 tf t.symbol
        = some (new_bar t (align_time t.timestamp tf)) := by
  constructor
  · have hf := process_tick_filter s t tf htf
    have hco : completed_opt t s tf = some b := by
      unfold completed_opt
      rw [hb]
      simp [hne]
    rw [hco] at hf
    have hmem : (tf, b) ∈ ((process_tick s t).1).filter (fun p => decide (p.1 = tf)) := by
      rw [hf]
      simp [opt_completed]
    exact List.mem_of_mem_filter hmem
  · rw [process_tick_slot s t tf htf, hb]
    simp [next_slot, hne]

/-- Concrete tick used by the C2 witness: establishes an open 1-second bar
at boundary 100. -/
def tick_w2a : Tick := { symbol := "btcusdt", timestamp := 100, price := 100, size := 1 }

/-- Concrete out-of-order tick for the C2 witness: boundary 50 < 100. -/
def tick_w2b : Tick := { symbol := "btcusdt", timestamp := 50, price := 99, size := 2 }

theorem c2_boundary_change_witness :
    ((process_tick fresh_resampler tick_w2a).2 "1s" "btcusdt" = some (new_bar tick_w2a 100)
      ∧ align_time tick_w2b.timestamp "1s" ≠ (new_bar tick_w2a 100).timestamp)
    ∧ (("1s", new_bar tick_w2a 100)
          ∈ (process_tick (process_tick fresh_resampler tick_w2a).2 tick_w2b).1
        ∧ (process_tick (process_tick fresh_resampler tick_w2a).2 tick_w2b).2 "1s" "btcusdt"
            = some (new_bar tick_w2b (align_time tick_w2b.timestamp "1s"))) :=
  ⟨⟨by decide, by decide⟩,
   c2_boundary_change (process_tick fresh_resampler tick_w2a).2 tick_w2b "1s"
     (new_bar tick_w2a 100) (Or.inl rfl) (by decide) (by decide)⟩

theorem get_interval_seconds_pos (tf : String)
    (htf : tf = "1s" ∨ tf = "1m" ∨ tf = "5m") :
    0 < get_interval_seconds tf := by
  rcases htf with h | h | h <;> subst h <;> decide

/-- C1: on a fresh `Resampler`, for any one of the three timeframes, three
same-symbol ticks whose aligned boundaries are B, B, B + interval behave
as specified: the first tick completes nothing and opens the bar
{o = h = l = c = price, v = size}; the second completes nothing for this
timeframe and updates that open bar; the third completes exactly one bar
for this timeframe — the bar for boundary B, whose volume is the sum of
the first two ticks' sizes and whose high/low are their extremes. -/
theorem c1_first_bar_lifecycle (tf : String)
    (htf : tf = "1s" ∨ tf = "1m" ∨ tf = "5m")
    (t1 t2 t3 : Tick)
    (h2 : t2.symbol = t1.symbol) (h3 : t3.symbol = t1.symbol)
    (hB2 : align_time t2.timestamp tf = align_time t1.timestamp tf)
    (hB3 : align_time t3.timestamp tf
            = align_time t1.timestamp tf + get_interval_seconds tf) :
    (process_tick fresh_resampler t1).1 = []
    ∧ (process_tick fresh_resampler t1).2 tf t1.symbol
        = some (new_bar t1 (align_time t1.timestamp tf))
    ∧ ((process_tick (process_tick fresh_resampler t1).2 t2).1).filter
        (fun p => decide (p.1 = tf)) = []
    ∧ (process_tick (process_tick fresh_resampler t1).2 t2).2 tf t1.symbol
        = some (update_bar (new_bar t1 (align_time t1.timestamp tf)) t2)
    ∧ ((process_tick
          (process_tick (process_tick fresh_resampler t1).2 t2).2 t3).1).filter
        (fun p => decide (p.1 = tf))
        = [(tf, update_bar (new_bar t1 (align_time t1.timestamp tf)) t2)]
    ∧ (update_bar (new_bar t1 (align_time t1.timestamp tf)) t2).timestamp
        = align_time t1.timestamp tf
    ∧ (update_bar (new_bar t1 (align_time t1.timestamp tf)) t2).volume
        = t1.size + t2.size
    ∧ (update_bar (new_bar t1 (align_time t1.timestamp tf)) t2).high
        = max t1.price t2.price
    ∧ (update_bar (new_bar t1 (align_time t1.timestamp tf)) t2).low
        = min t1.price t2.price := by
  have hfresh : ∀ tf' : String, fresh_resampler tf' t1.symbol = none := fun _ => rfl
  have hs1 : (process_tick fresh_resampler t1).1 = [] := by
    rw [process_tick_fst,
      completed_of_frame t1 _ "1m" "5m" (by decide),
      completed_of_frame t1 _ "1s" "5m" (by decide),
      completed_of_frame t1 _ "1s" "1m" (by decide)]
    simp [completed_of, fresh_resampler]
  have hslot1 : (process_tick fresh_resampler t1).2 tf t1.symbol
      = some (new_bar t1 (align_time t1.timestamp tf)) := by
    rw [process_tick_slot fresh_resampler t1 tf htf, hfresh tf]
    rfl
  have hslot1' : (process_tick fresh_resampler t1).2 tf t2.symbol
      = some (new_bar t1 (align_time t1.timestamp tf)) := by rw [h2]; exact hslot1
  have hf2 : ((process_tick (process_tick fresh_resampler t1).2 t2).1).filter
      (fun p => decide (p.1 = tf)) = [] := by
    rw [process_tick_filter _ t2 tf htf]
    unfold completed_opt
    rw [hslot1']
    simp [new_bar, hB2, opt_completed]
  have hslot2 : (process_tick (process_tick fresh_resampler t1).2 t2).2 tf t1.symbol
      = some (update_bar (new_bar t1 (align_time t1.timestamp tf)) t2) := by
    rw [← h2, process_tick_slot _ t2 tf htf, hslot1']
    unfold next_slot
    simp [new_bar, hB2, update_bar]
  have hslot2' : (process_tick (process_tick fresh_resampler t1).2 t2).2 tf t3.symbol
      = some (update_bar (new_bar t1 (align_time t1.timestamp tf)) t2) := by
    rw [h3]; exact hslot2
  have hne3 : align_time t3.timestamp tf
      ≠ (update_bar (new_bar t1 (align_time t1.timestamp tf)) t2).timestamp := by
    have := get_interval_seconds_pos tf htf
    simp only [update_bar, new_bar, hB3]
    omega
  have hf3 : ((process_tick
        (process_tick (process_tick fresh_resampler t1).2 t2).2 t3).1).filter
      (fun p => decide (p.1 = tf))
      = [(tf, update_bar (new_bar t1 (align_time t1.timestamp tf)) t2)] := by
    rw [process_tick_filter _ t3 tf htf]
    unfold completed_opt
    rw [hslot2']
    simp [hne3, opt_completed]
  exact ⟨hs1, hslot1, hf2, hslot2, hf3, rfl, rfl, rfl, rfl⟩

/-- The three ticks of the specification's end-to-end 1-second scenario
(§8): (t = 0.2, p = 100, q = 1), (t = 0.7, p = 102, q = 2),
(t = 1.1, p = 101, q = 1), all for symbol btcusdt. -/
def tick_w1a : Tick := { symbol := "btcusdt", timestamp := 0.2, price := 100, size := 1 }

def tick_w1b : Tick := { symbol := "btcusdt", timestamp := 0.7, price := 102, size := 2 }

def tick_w1c : Tick := { symbol := "btcusdt", timestamp := 1.1, price := 101, size := 1 }

theorem c1_first_bar_lifecycle_witness :
    (tick_w1b.symbol = tick_w1a.symbol
      ∧ tick_w1c.symbol = tick_w1a.symbol
      ∧ align_time tick_w1b.timestamp "1s" = align_time tick_w1a.timestamp "1s"
      ∧ align_time tick_w1c.timestamp "1s"
          = align_time tick_w1a.timestamp "1s" + get_interval_seconds "1s")
    ∧ ((process_tick fresh_resampler tick_w1a).1 = []
    ∧ (process_tick fresh_resampler tick_w1a).2 "1s" tick_w1a.symbol
        = some (new_bar tick_w1a (align_time tick_w1a.timestamp "1s"))
    ∧ ((process_tick (process_tick fresh_resampler tick_w1a).2 tick_w1b).1).filter
        (fun p => decide (p.1 = "1s")) = []
    ∧ (process_tick (process_tick fresh_resampler tick_w1a).2 tick_w1b).2 "1s" tick_w1a.symbol
        = some (update_bar (new_bar tick_w1a (align_time tick_w1a.timestamp "1s")) tick_w1b)
    ∧ ((process_tick
          (process_tick (process_tick fresh_resampler tick_w1a).2 tick_w1b).2 tick_w1c).1).filter
        (fun p => decide (p.1 = "1s"))
        = [("1s", update_bar (new_bar tick_w1a (align_time tick_w1a.timestamp "1s")) tick_w1b)]
    ∧ (update_bar (new_bar tick_w1a (align_time tick_w1a.timestamp "1s")) tick_w1b).timestamp
        = align_time tick_w1a.timestamp "1s"
    ∧ (update_bar (new_bar tick_w1a (align_time tick_w1a.timestamp "1s")) tick_w1b).volume
        = tick_w1a.size + tick_w1b.size
    ∧ (update_bar (new_bar tick_w1a (align_time tick_w1a.timestamp "1s")) tick_w1b).high
        = max tick_w1a.price tick_w1b.price
    ∧ (update_bar (new_bar tick_w1a (align_time tick_w1a.timestamp "1s")) tick_w1b).low
        = min tick_w1a.price tick_w1b.price) :=
  ⟨⟨rfl, rfl,
    by norm_num [tick_w1a, tick_w1b, align_time, get_interval_seconds, Rat.floor_def'],
    by norm_num [tick_w1a, tick_w1c, align_time, get_interval_seconds, Rat.floor_def']⟩,
   c1_first_bar_lifecycle "1s" (Or.inl rfl) tick_w1a tick_w1b tick_w1c
     rfl rfl
     (by norm_num [tick_w1a, tick_w1b, align_time, get_interval_seconds, Rat.floor_def'])
     (by norm_num [tick_w1a, tick_w1c, align_time, get_interval_seconds, Rat.floor_def'])⟩

/-! ### The bar invariant (C4) -/

/-- The bar obtained by creating a bar from tick `t0` at boundary `ts` and
then folding `update_bar` over the further ticks `l` aggregated into it. -/
def agg_of (t0 : Tick) (ts : ℤ) (l : List Tick) : Bar :=
  l.foldl update_bar (new_bar t0 ts)

/-- The OHLC well-formedness inequalities of the specification. -/
def WF_bar (b : Bar) : Prop :=
  b.low ≤ b.open_ ∧ b.low ≤ b.close ∧ b.low ≤ b.high
    ∧ b.open_ ≤ b.high ∧ b.close ≤ b.high

/-- A bar that is an aggregate of some nonempty tick sequence, satisfies
the OHLC inequalities, and whose volume is the sum of the sizes of the
ticks aggregated into it. -/
def good_bar (b : Bar) : Prop :=
  WF_bar b ∧ ∃ t0 l, b = agg_of t0 b.timestamp l
    ∧ b.volume = t0.size + (l.map Tick.size).sum

theorem WF_bar_new (t : Tick) (ts : ℤ) : WF_bar (new_bar t ts) := by
  refine ⟨le_refl _, le_refl _, le_refl _, le_refl _, le_refl _⟩

theorem WF_bar_update (b : Bar) (t : Tick) (h : WF_bar b) :
    WF_bar (update_bar b t) := by
  obtain ⟨h1, h2, h3, h4, h5⟩ := h
  refine ⟨le_trans (min_le_left _ _) h1, min_le_right _ _,
    le_trans (min_le_left _ _) (le_trans h3 (le_max_left _ _)),
    le_trans h4 (le_max_left _ _), le_max_right _ _⟩

theorem update_bar_timestamp (b : Bar) (t : Tick) :
    (update_bar b t).timestamp = b.timestamp := rfl

theorem good_bar_new (t : Tick) (ts : ℤ) : good_bar (new_bar t ts) :=
  ⟨WF_bar_new t ts, t, [], by simp [agg_of, new_bar], by simp [new_bar]⟩

theorem good_bar_update (b : Bar) (t : Tick) (h : good_bar b) :
    good_bar (update_bar b t) := by
  obtain ⟨hwf, t0, l, hagg, hvol⟩ := h
  refine ⟨WF_bar_update b t hwf, t0, l ++ [t], ?_, ?_⟩
  · rw [update_bar_timestamp]
    unfold agg_of at hagg ⊢
    rw [List.foldl_append, ← hagg]
    rfl
  · simp only [update_bar, List.map_append, List.sum_append, List.map_cons,
      List.map_nil, List.sum_cons, List.sum_nil, hvol]
    ring

theorem good_bar_next_slot (t : Tick) (tf : String) (o : Option Bar)
    (h : ∀ b, o = some b → good_bar b) : good_bar (next_slot t tf o) := by
  cases o with
  | none => exact good_bar_new t _
  | some b =>
    simp only [next_slot]
    by_cases hne : align_time t.timestamp tf ≠ b.timestamp
    · rw [if_pos hne]
      exact good_bar_new t _
    · rw [if_neg hne]
      exact good_bar_update b t (h b rfl)

/-- The Resampler state invariant: every open bar is a good bar. -/
def resampler_inv (s : Resampler) : Prop :=
  ∀ tf sym b, s tf sym = some b → good_bar b

theorem mem_completed_of (t : Tick) (s : Resampler) (tf : String)
    (p : String × Bar) (h : p ∈ completed_of t s tf) :
    p.1 = tf ∧ s tf t.symbol = some p.2 := by
  unfold completed_of at h
  cases hs : s tf t.symbol with
  | none => rw [hs] at h; simp at h
  | some b =>
    rw [hs] at h
    by_cases hne : align_time t.timestamp tf ≠ b.timestamp
    · simp [hne] at h
      subst h
      exact ⟨rfl, rfl⟩
    · simp [hne] at h

/-- Every completed bar emitted by `process_tick` was an open bar of the
pre-call state, in the slot of its own timeframe tag. -/
theorem mem_process_tick_fst (s : Resampler) (t : Tick) (p : String × Bar)
    (h : p ∈ (process_tick s t).1) : s p.1 t.symbol = some p.2 := by
  rw [process_tick_fst,
    completed_of_frame t _ "1m" "5m" (by decide),
    completed_of_frame t _ "1s" "5m" (by decide),
    completed_of_frame t _ "1s" "1m" (by decide)] at h
  rcases List.mem_append.1 h with h' | h'
  · rcases List.mem_append.1 h' with h'' | h''
    · obtain ⟨h1, h2⟩ := mem_completed_of t s "1s" p h''
      rw [h1]; exact h2
    · obtain ⟨h1, h2⟩ := mem_completed_of t s "1m" p h''
      rw [h1]; exact h2
  · obtain ⟨h1, h2⟩ := mem_completed_of t s "5m" p h'
    rw [h1]; exact h2

/-- C4: `process_tick` preserves the state invariant.  For each
(timeframe, symbol) there is at most one open bar; assuming every open bar
of the pre-state is a good bar (OHLC inequalities and volume = sum of the
aggregated tick sizes), the same holds for every open bar of the
post-state and for every completed bar the call emits. -/
theorem c4_invariant_preserved (s : Resampler) (t : Tick)
    (h : resampler_inv s) :
    (∀ tf sym, ((process_tick s t).2 tf sym).toList.length ≤ 1)
    ∧ resampler_inv (process_tick s t).2
    ∧ (∀ p ∈ (process_tick s t).1, good_bar p.2) := by
  refine ⟨fun tf sym => ?_, fun tf sym b hb => ?_, fun p hp => ?_⟩
  · cases (process_tick s t).2 tf sym <;> simp
  · by_cases hsym : sym = t.symbol
    · subst hsym
      by_cases h1 : tf = "1s"
      · subst h1
        rw [process_tick_slot_1s] at hb
        exact (Option.some.inj hb) ▸ good_bar_next_slot t "1s" _
          (fun b' hb' => h "1s" t.symbol b' hb')
      · by_cases h2 : tf = "1m"
        · subst h2
          rw [process_tick_slot_1m] at hb
          exact (Option.some.inj hb) ▸ good_bar_next_slot t "1m" _
            (fun b' hb' => h "1m" t.symbol b' hb')
        · by_cases h3 : tf = "5m"
          · subst h3
            rw [process_tick_slot_5m] at hb
            exact (Option.some.inj hb) ▸ good_bar_next_slot t "5m" _
              (fun b' hb' => h "5m" t.symbol b' hb')
          · rw [process_tick_frame s t tf t.symbol (Or.inl ⟨h1, h2, h3⟩)] at hb
            exact h tf t.symbol b hb
    · rw [process_tick_frame s t tf sym (Or.inr hsym)] at hb
      exact h tf sym b hb
  · exact h p.1 t.symbol p.2 (mem_process_tick_fst s t p hp)

theorem resampler_inv_fresh : resampler_inv fresh_resampler :=
  fun _ _ _ hb => Option.noConfusion hb

/-- Concrete tick for the C4 witness. -/
def tick_w4 : Tick := { symbol := "ethusdt", timestamp := 3, price := 2000, size := 5 }

theorem c4_invariant_preserved_witness :
    resampler_inv fresh_resampler
    ∧ ((∀ tf sym, ((process_tick fresh_resampler tick_w4).2 tf sym).toList.length ≤ 1)
      ∧ resampler_inv (process_tick fresh_resampler tick_w4).2
      ∧ (∀ p ∈ (process_tick fresh_resampler tick_w4).1, good_bar p.2)) :=
  ⟨resampler_inv_fresh,
   c4_invariant_preserved fresh_resampler tick_w4 resampler_inv_fresh⟩

/-! ### Persistence layer: `src/database.py` -/

/-- One row of the `ticks` table (primary key `(symbol, timestamp)`). -/
structure TickRow where
  symbol : String
  timestamp : ℚ
  price : ℚ
  size : ℚ
deriving DecidableEq, Repr

/-- The SQLite store: the `ticks` table and the three `bars_{tf}` tables
created by `DatabaseHandler._init_db`.  Tables are modelled as row lists. -/
structure DB where
  ticks : List TickRow
  bars_1s : List Bar
  bars_1m : List Bar
  bars_5m : List Bar
deriving DecidableEq, Repr

/-- `DatabaseHandler.insert_tick`: `INSERT OR IGNORE` keyed by
`(symbol, timestamp)` — if a row with the key exists the statement is a
no-op, otherwise the row is appended. -/
def db_insert_tick (db : DB) (symbol : String) (timestamp price size : ℚ) : DB :=
  if db.ticks.any (fun x => decide (x.symbol = symbol ∧ x.timestamp = timestamp)) then db
  else { db with ticks := db.ticks ++ [⟨symbol, timestamp, price, size⟩] }

/-- `INSERT OR REPLACE` on one bar table: delete any row with the same
`(symbol, timestamp)` primary key, then append the new row. -/
def replace_bar_rows (tbl : List Bar) (b : Bar) : List Bar :=
  tbl.filter (fun x => !decide (x.symbol = b.symbol ∧ x.timestamp = b.timestamp)) ++ [b]

/-- `DatabaseHandler.insert_bar`: upsert into `bars_{timeframe}`.  For an
unknown timeframe the `sqlite3.OperationalError` (no such table) is caught
by the bare `except`, logged, and swallowed: the store is unchanged. -/
def db_insert_bar (db : DB) (timeframe : String) (bar : Bar) : DB :=
  if timeframe = "1s" then { db with bars_1s := replace_bar_rows db.bars_1s bar }
  else if timeframe = "1m" then { db with bars_1m := replace_bar_rows db.bars_1m bar }
  else if timeframe = "5m" then { db with bars_5m := replace_bar_rows db.bars_5m bar }
  else db

/-- The contents of `bars_{timeframe}`; `none` models the missing table
(a read against it raises `sqlite3.OperationalError`). -/
def get_table (db : DB) (timeframe : String) : Option (List Bar) :=
  if timeframe = "1s" then some db.bars_1s
  else if timeframe = "1m" then some db.bars_1m
  else if timeframe = "5m" then some db.bars_5m
  else none

/-- Number of `ticks` rows with a given primary key. -/
def count_tick_key (db : DB) (symbol : String) (timestamp : ℚ) : ℕ :=
  (db.ticks.filter (fun x => decide (x.symbol = symbol ∧ x.timestamp = timestamp))).length

/-- The primary-key constraint of the `ticks` table: pairwise distinct
`(symbol, timestamp)` keys. -/
def no_dup_tick_keys (db : DB) : Prop :=
  List.Pairwise (fun a b => ¬(a.symbol = b.symbol ∧ a.timestamp = b.timestamp)) db.ticks

theorem filter_length_one_of_any (l : List TickRow) (symbol : String) (timestamp : ℚ)
    (hnd : List.Pairwise (fun a b => ¬(a.symbol = b.symbol ∧ a.timestamp = b.timestamp)) l)
    (hany : l.any (fun x => decide (x.symbol = symbol ∧ x.timestamp = timestamp)) = true) :
    (l.filter (fun x => decide (x.symbol = symbol ∧ x.timestamp = timestamp))).length = 1 := by
  induction l with
  | nil => simp at hany
  | cons x xs ih =>
    rcases List.pairwise_cons.1 hnd with ⟨hx, hxs⟩
    by_cases hPx : x.symbol = symbol ∧ x.timestamp = timestamp
    · have hrest : xs.filter (fun x => decide (x.symbol = symbol ∧ x.timestamp = timestamp)) = [] := by
        rw [List.filter_eq_nil_iff]
        intro y hy
        simp only [decide_eq_true_eq]
        intro hPy
        exact hx y hy ⟨hPx.1.trans hPy.1.symm, hPx.2.trans hPy.2.symm⟩
      simp [List.filter_cons, hPx, hrest]
      intro a ha ha1 ha2
      exact hx a ha ⟨hPx.1.trans ha1.symm, hPx.2.trans ha2.symm⟩
    · have hany' : xs.any (fun x => decide (x.symbol = symbol ∧ x.timestamp = timestamp)) = true := by
        rcases List.any_eq_true.1 hany with ⟨y, hy, hPy⟩
        rcases List.mem_cons.1 hy with rfl | hy'
        · exact absurd (of_decide_eq_true hPy) hPx
        · exact List.any_eq_true.2 ⟨y, hy', hPy⟩
      simp only [List.filter_cons, hPx, decide_eq_true_eq, if_neg]
      simpa using ih hxs hany'

/-- C6: `insert_tick` is idempotent.  Under the primary-key invariant,
repeating an insert with the same `(symbol, timestamp)` key (any values)
leaves the store exactly as after the first call, with exactly one row for
that key; when the key was previously absent, that row carries the first
call's values. -/
theorem c6_insert_tick_idempotent (db : DB) (symbol : String)
    (timestamp p1 s1 p2 s2 : ℚ) (hnd : no_dup_tick_keys db) :
    db_insert_tick (db_insert_tick db symbol timestamp p1 s1) symbol timestamp p2 s2
      = db_insert_tick db symbol timestamp p1 s1
    ∧ count_tick_key
        (db_insert_tick (db_insert_tick db symbol timestamp p1 s1) symbol timestamp p2 s2)
        symbol timestamp = 1
    ∧ ((∀ x ∈ db.ticks, ¬(x.symbol = symbol ∧ x.timestamp = timestamp)) →
        ((db_insert_tick (db_insert_tick db symbol timestamp p1 s1) symbol timestamp p2 s2).ticks.filter
          (fun x => decide (x.symbol = symbol ∧ x.timestamp = timestamp)))
          = [⟨symbol, timestamp, p1, s1⟩]) := by
  by_cases hany : db.ticks.any (fun x => decide (x.symbol = symbol ∧ x.timestamp = timestamp)) = true
  · have h1 : db_insert_tick db symbol timestamp p1 s1 = db := by
      unfold db_insert_tick; rw [if_pos hany]
    have h2 : db_insert_tick db symbol timestamp p2 s2 = db := by
      unfold db_insert_tick; rw [if_pos hany]
    refine ⟨by rw [h1, h2], ?_, ?_⟩
    · rw [h1, h2]
      exact filter_length_one_of_any db.ticks symbol timestamp hnd hany
    · intro habs
      rcases List.any_eq_true.1 hany with ⟨y, hy, hPy⟩
      exact absurd (of_decide_eq_true hPy) (habs y hy)
  · have hfil : db.ticks.filter (fun x => decide (x.symbol = symbol ∧ x.timestamp = timestamp)) = [] := by
      rw [List.filter_eq_nil_iff]
      intro y hy hPy
      exact hany (List.any_eq_true.2 ⟨y, hy, hPy⟩)
    have h1 : db_insert_tick db symbol timestamp p1 s1
        = { db with ticks := db.ticks ++ [⟨symbol, timestamp, p1, s1⟩] } := by
      unfold db_insert_tick; rw [if_neg hany]
    have hany2 : (db.ticks ++ [(⟨symbol, timestamp, p1, s1⟩ : TickRow)]).any
        (fun x => decide (x.symbol = symbol ∧ x.timestamp = timestamp)) = true :=
      List.any_eq_true.2 ⟨⟨symbol, timestamp, p1, s1⟩, List.mem_append_right _ (List.mem_singleton.2 rfl),
        by simp⟩
    have h2 : db_insert_tick (db_insert_tick db symbol timestamp p1 s1) symbol timestamp p2 s2
        = db_insert_tick db symbol timestamp p1 s1 := by
      rw [h1]
      unfold db_insert_tick
      rw [if_pos hany2]
    have hall : ∀ a ∈ db.ticks, a.symbol = symbol → ¬a.timestamp = timestamp :=
      fun a ha ha1 ha2 => hany (List.any_eq_true.2 ⟨a, ha, decide_eq_true ⟨ha1, ha2⟩⟩)
    refine ⟨h2, ?_, fun _ => ?_⟩
    · rw [h2, h1]
      unfold count_tick_key
      simp [List.filter_append, hfil]
      exact hall
    · rw [h2, h1]
      simp [List.filter_append, hfil]
      exact hall

/-- Concrete store for the C6 witness: one pre-existing row with a
different key. -/
def db_w6 : DB := { ticks := [⟨"ethusdt", 7, 1, 1⟩], bars_1s := [], bars_1m := [], bars_5m := [] }

theorem c6_insert_tick_idempotent_witness :
    no_dup_tick_keys db_w6
    ∧ (db_insert_tick (db_insert_tick db_w6 "btcusdt" 5 100 1) "btcusdt" 5 200 2
        = db_insert_tick db_w6 "btcusdt" 5 100 1
      ∧ count_tick_key
          (db_insert_tick (db_insert_tick db_w6 "btcusdt" 5 100 1) "btcusdt" 5 200 2)
          "btcusdt" 5 = 1
      ∧ ((∀ x ∈ db_w6.ticks, ¬(x.symbol = "btcusdt" ∧ x.timestamp = 5)) →
          ((db_insert_tick (db_insert_tick db_w6 "btcusdt" 5 100 1) "btcusdt" 5 200 2).ticks.filter
            (fun x => decide (x.symbol = "btcusdt" ∧ x.timestamp = 5)))
            = [⟨"btcusdt", 5, 100, 1⟩])) :=
  ⟨by unfold no_dup_tick_keys db_w6; simp,
   c6_insert_tick_idempotent db_w6 "btcusdt" 5 100 1 200 2
     (by unfold no_dup_tick_keys db_w6; simp)⟩

theorem filter_not_filter {α : Type} (l : List α) (p : α → Bool) :
    (l.filter (fun a => !p a)).filter p = [] := by
  induction l with
  | nil => rfl
  | cons x xs ih =>
    cases hp : p x <;> simp [List.filter_cons, hp, ih]

theorem filter_replace_bar_rows (tbl : List Bar) (b b2 : Bar)
    (hsym : b2.symbol = b.symbol) (hts : b2.timestamp = b.timestamp) :
    (replace_bar_rows (replace_bar_rows tbl b) b2).filter
      (fun x => decide (x.symbol = b.symbol ∧ x.timestamp = b.timestamp)) = [b2] := by
  have hKK : ∀ x : Bar,
      decide (x.symbol = b2.symbol ∧ x.timestamp = b2.timestamp)
        = decide (x.symbol = b.symbol ∧ x.timestamp = b.timestamp) := by
    intro x
    rw [hsym, hts]
  have hb2 : decide (b2.symbol = b.symbol ∧ b2.timestamp = b.timestamp) = true :=
    decide_eq_true ⟨hsym, hts⟩
  unfold replace_bar_rows
  rw [List.filter_append]
  have h3 : List.filter (fun x => !decide (x.symbol = b2.symbol ∧ x.timestamp = b2.timestamp))
        (List.filter (fun x => !decide (x.symbol = b.symbol ∧ x.timestamp = b.timestamp)) tbl ++ [b])
      = List.filter (fun x => !decide (x.symbol = b.symbol ∧ x.timestamp = b.timestamp))
        (List.filter (fun x => !decide (x.symbol = b.symbol ∧ x.timestamp = b.timestamp)) tbl ++ [b]) :=
    List.filter_congr (fun x _ => by rw [hKK x])
  rw [h3, filter_not_filter]
  simp [List.filter_cons, hb2]
  exact ⟨hsym, hts⟩

/-- C7: `insert_bar` is an upsert keyed by `(symbol, timestamp)`: after two
calls on the same key of any of the three bar tables, that table holds
exactly one row for the key and it carries the second call's values. -/
theorem c7_insert_bar_upsert (db : DB) (tf : String) (b b2 : Bar)
    (htf : tf = "1s" ∨ tf = "1m" ∨ tf = "5m")
    (hsym : b2.symbol = b.symbol) (hts : b2.timestamp = b.timestamp) :
    ∃ tbl, get_table (db_insert_bar (db_insert_bar db tf b) tf b2) tf = some tbl
      ∧ tbl.filter (fun x => decide (x.symbol = b.symbol ∧ x.timestamp = b.timestamp)) = [b2] := by
  rcases htf with h | h | h <;> subst h
  · exact ⟨replace_bar_rows (replace_bar_rows db.bars_1s b) b2,
      by simp [db_insert_bar, get_table], filter_replace_bar_rows db.bars_1s b b2 hsym hts⟩
  · exact ⟨replace_bar_rows (replace_bar_rows db.bars_1m b) b2,
      by simp [db_insert_bar, get_table], filter_replace_bar_rows db.bars_1m b b2 hsym hts⟩
  · exact ⟨replace_bar_rows (replace_bar_rows db.bars_5m b) b2,
      by simp [db_insert_bar, get_table], filter_replace_bar_rows db.bars_5m b b2 hsym hts⟩

/-- Concrete inputs for the C7 witness: two bars with the same key and
different closes, over a table with one other-key row. -/
def bar_w7a : Bar := { symbol := "btcusdt", timestamp := 60, open_ := 1, high := 3, low := 1, close := 2, volume := 5 }

def bar_w7b : Bar := { symbol := "btcusdt", timestamp := 60, open_ := 1, high := 4, low := 1, close := 3, volume := 9 }

def db_w7 : DB := { ticks := [], bars_1s := [], bars_1m := [{ symbol := "ethusdt", timestamp := 60, open_ := 1, high := 1, low := 1, close := 1, volume := 1 }], bars_5m := [] }

theorem c7_insert_bar_upsert_witness :
    bar_w7b.symbol = bar_w7a.symbol ∧ bar_w7b.timestamp = bar_w7a.timestamp
    ∧ bar_w7b.close ≠ bar_w7a.close
    ∧ ∃ tbl, get_table (db_insert_bar (db_insert_bar db_w7 "1m" bar_w7a) "1m" bar_w7b) "1m" = some tbl
      ∧ tbl.filter (fun x => decide (x.symbol = bar_w7a.symbol ∧ x.timestamp = bar_w7a.timestamp)) = [bar_w7b] :=
  ⟨rfl, rfl, by decide,
   c7_insert_bar_upsert db_w7 "1m" bar_w7a bar_w7b (Or.inr (Or.inl rfl)) rfl rfl⟩

/-- Concrete store and bar for the C10 counterexample. -/
def db_w10 : DB := { ticks := [], bars_1s := [], bars_1m := [], bars_5m := [] }

def bar_w10 : Bar := { symbol := "btcusdt", timestamp := 0, open_ := 1, high := 1, low := 1, close := 1, volume := 1 }

/-- C10 counterexample: an unknown timeframe key is NOT treated as fatal.
The interval lookup silently falls back to the default 60-second interval,
and a bar write against the unknown timeframe leaves the store unchanged
(the `sqlite3.OperationalError` is caught and merely logged), contradicting
the claim that such contract violations surface loudly with no silent
fallback and no silently dropped write. -/
theorem c10_unknown_timeframe_counterexample :
    get_interval_seconds "1h" = 60
    ∧ db_insert_bar db_w10 "1h" bar_w10 = db_w10 :=
  ⟨rfl, rfl⟩

/-- C10 (amended): for every timeframe key outside the fixed set, the
interval lookup returns the default 60 and `insert_bar` leaves the store
unchanged — the violation is swallowed, not fatal. -/
theorem c10_unknown_timeframe_swallowed (tf : String)
    (h1 : tf ≠ "1s") (h2 : tf ≠ "1m") (h3 : tf ≠ "5m") :
    get_interval_seconds tf = 60
    ∧ ∀ (db : DB) (b : Bar), db_insert_bar db tf b = db := by
  constructor
  · unfold get_interval_seconds
    rw [if_neg h1, if_neg h2, if_neg h3]
  · intro db b
    unfold db_insert_bar
    rw [if_neg h1, if_neg h2, if_neg h3]

theorem c10_unknown_timeframe_swallowed_witness :
    get_interval_seconds "1h" = 60
    ∧ ∀ (db : DB) (b : Bar), db_insert_bar db "1h" b = db :=
  c10_unknown_timeframe_swallowed "1h" (by decide) (by decide) (by decide)

/-! ### Reads from the bar tables (`DatabaseHandler.get_bars`) -/

/-- The `ORDER BY timestamp DESC` comparison. -/
def bar_time_ge (a b : Bar) : Prop := b.timestamp ≤ a.timestamp

instance : DecidableRel bar_time_ge :=
  fun a b => inferInstanceAs (Decidable (b.timestamp ≤ a.timestamp))

instance : IsTotal Bar bar_time_ge := ⟨fun a b => le_total b.timestamp a.timestamp⟩

instance : IsTrans Bar bar_time_ge := ⟨fun _ _ _ hab hbc => le_trans hbc hab⟩

/-- `DatabaseHandler.get_bars`: select the rows of `bars_{timeframe}` for
one symbol, order them newest-first, keep at most `limit`, and return them
reversed (oldest-first, for plotting).  `none` models the exception raised
when the table does not exist. -/
def db_get_bars (db : DB) (timeframe symbol : String) (limit : ℕ) :
    Option (List Bar) :=
  (get_table db timeframe).map (fun tbl =>
    ((List.insertionSort bar_time_ge (tbl.filter (fun b => decide (b.symbol = symbol)))).take
      limit).reverse)

/-! ### `src/stream_manager.py` -/

/-- `DEFAULT_SYMBOLS` from `src/config.py`. -/
def DEFAULT_SYMBOLS : List String :=
  ["btcusdt", "ethusdt", "solusdt", "bnbusdt", "xrpusdt"]

/-- The `StreamManager` state: the per-symbol tick deque, the per
(timeframe, symbol) bar deque, and the persistent store.  The buffers are
dicts keyed by the configured symbols (and the three timeframes); `none`
models an absent key, whose lookup raises `KeyError`. -/
structure StreamManager where
  tick_buffer : String → Option (List Tick)
  bar_buffer : String → String → Option (List Bar)
  db : DB

/-- The buffers created by `StreamManager.__init__`: one empty deque per
configured symbol (and per timeframe for bars). -/
def init_stream_manager (db : DB) : StreamManager :=
  { tick_buffer := fun s => if s ∈ DEFAULT_SYMBOLS then some [] else none
    bar_buffer := fun tf s =>
      if (tf = "1s" ∨ tf = "1m" ∨ tf = "5m") ∧ s ∈ DEFAULT_SYMBOLS then some [] else none
    db := db }

/-- `StreamManager.get_latest_price`: the price of the newest tick in the
symbol's deque, `0.0` when the deque is empty; `none` models the
`KeyError` raised when the symbol is not a buffer key. -/
def get_latest_price (sm : StreamManager) (symbol : String) : Option ℚ :=
  match sm.tick_buffer symbol with
  | none => none
  | some l =>
    match l.getLast? with
    | some t => some t.price
    | none => some 0

/-- `StreamManager.get_bars_df`: serve from the in-memory bar deque when it
is non-empty, otherwise read from the store; the state is returned
unchanged (the method performs no writes).  `none` models a raised
exception (unknown buffer key, or missing table). -/
def get_bars_df (sm : StreamManager) (timeframe symbol : String) :
    Option (List Bar) × StreamManager :=
  match sm.bar_buffer timeframe symbol with
  | none => (none, sm)
  | some data =>
    if data.isEmpty then
      match db_get_bars sm.db timeframe symbol 200 with
      | none => (none, sm)
      | some db_data => if db_data.isEmpty then (some [], sm) else (some db_data, sm)
    else (some data, sm)

/-- C8: cold start.  With an empty in-memory bar deque and a non-empty
stored table for the key, `get_bars_df` returns bars sourced from storage,
oldest-first, leaves the whole coordinator state unchanged, and a repeated
call on the returned state gives the identical result. -/
theorem c8_cold_start (sm : StreamManager) (tf symbol : String)
    (hbuf : sm.bar_buffer tf symbol = some [])
    (tbl : List Bar) (htbl : get_table sm.db tf = some tbl)
    (hne : tbl.filter (fun b => decide (b.symbol = symbol)) ≠ []) :
    ∃ res : List Bar,
      get_bars_df sm tf symbol = (some res, sm)
      ∧ res ≠ []
      ∧ List.Pairwise (fun a b => a.timestamp ≤ b.timestamp) res
      ∧ (∀ b ∈ res, b ∈ tbl ∧ b.symbol = symbol)
      ∧ get_bars_df (get_bars_df sm tf symbol).2 tf symbol
          = get_bars_df sm tf symbol := by
  set filtered := tbl.filter (fun b => decide (b.symbol = symbol)) with hfiltered
  set res := ((List.insertionSort bar_time_ge filtered).take 200).reverse with hres
  have hdb : db_get_bars sm.db tf symbol 200 = some res := by
    unfold db_get_bars
    rw [htbl]
    rfl
  have hlen : 0 < res.length := by
    rw [hres, List.length_reverse, List.length_take, List.length_insertionSort]
    have : 0 < filtered.length := List.length_pos.2 hne
    omega
  have hresne : res ≠ [] := List.ne_nil_of_length_pos hlen
  have hresempty : res.isEmpty = false := by
    cases hr : res with
    | nil => exact absurd hr hresne
    | cons a l => rfl
  have hcall : get_bars_df sm tf symbol = (some res, sm) := by
    simp only [get_bars_df, hbuf, hdb, hresempty, List.isEmpty_nil, if_true]
    simp
  refine ⟨res, hcall, hresne, ?_, ?_, ?_⟩
  · have hsorted : List.Pairwise bar_time_ge (List.insertionSort bar_time_ge filtered) :=
      List.sorted_insertionSort bar_time_ge filtered
    have htake : List.Pairwise bar_time_ge ((List.insertionSort bar_time_ge filtered).take 200) :=
      hsorted.sublist (List.take_sublist 200 _)
    rw [hres]
    exact List.pairwise_reverse.2 (htake.imp (fun h => h))
  · intro b hb
    rw [hres, List.mem_reverse] at hb
    have hb2 : b ∈ List.insertionSort bar_time_ge filtered :=
      (List.take_sublist 200 _).subset hb
    rw [List.mem_insertionSort] at hb2
    rw [hfiltered, List.mem_filter] at hb2
    exact ⟨hb2.1, of_decide_eq_true hb2.2⟩
  · rw [hcall]
    exact hcall

/-- Concrete store for the C8 witness: three 1-minute bars, two for
btcusdt (stored newest-first to exercise the ordering) and one for another
symbol. -/
def db_w8 : DB :=
  { ticks := []
    bars_1s := []
    bars_1m :=
      [{ symbol := "btcusdt", timestamp := 120, open_ := 10, high := 12, low := 9, close := 11, volume := 3 },
       { symbol := "ethusdt", timestamp := 60, open_ := 1, high := 1, low := 1, close := 1, volume := 1 },
       { symbol := "btcusdt", timestamp := 60, open_ := 9, high := 10, low := 8, close := 10, volume := 2 }]
    bars_5m := [] }

def sm_w8 : StreamManager := init_stream_manager db_w8

theorem c8_cold_start_witness :
    (sm_w8.bar_buffer "1m" "btcusdt" = some []
      ∧ get_table sm_w8.db "1m" = some db_w8.bars_1m
      ∧ db_w8.bars_1m.filter (fun b => decide (b.symbol = "btcusdt")) ≠ [])
    ∧ ∃ res : List Bar,
        get_bars_df sm_w8 "1m" "btcusdt" = (some res, sm_w8)
        ∧ res ≠ []
        ∧ List.Pairwise (fun a b => a.timestamp ≤ b.timestamp) res
        ∧ (∀ b ∈ res, b ∈ db_w8.bars_1m ∧ b.symbol = "btcusdt")
        ∧ get_bars_df (get_bars_df sm_w8 "1m" "btcusdt").2 "1m" "btcusdt"
            = get_bars_df sm_w8 "1m" "btcusdt" :=
  ⟨⟨by decide, rfl, by decide⟩,
   c8_cold_start sm_w8 "1m" "btcusdt" (by decide) db_w8.bars_1m rfl (by decide)⟩

/-- Empty store backing the C9 states. -/
def db_w9 : DB := { ticks := [], bars_1s := [], bars_1m := [], bars_5m := [] }

def sm_w9 : StreamManager := init_stream_manager db_w9

/-- C9 counterexample: `get_latest_price` is NOT total on all symbol
strings.  On a freshly started manager, querying a symbol outside the
configured `DEFAULT_SYMBOLS` set raises `KeyError` (the `none` result),
instead of returning a price or zero — refuting the claim's "for every
symbol string ... never raises an exception". -/
theorem c9_unknown_symbol_counterexample :
    get_latest_price sm_w9 "dogeusdt" = none := by decide

/-- C9 (amended): for every symbol in the configured `DEFAULT_SYMBOLS` set,
`get_latest_price` is callable in any state whose tick buffers cover the
configured symbols (as established by `__init__` and never shrunk),
including before any data has arrived: it returns the most recent tick's
price, or zero when no ticks for the symbol have been seen, and never
raises. -/
theorem c9_latest_price_configured (sm : StreamManager) (symbol : String)
    (hdom : ∀ s ∈ DEFAULT_SYMBOLS, (sm.tick_buffer s).isSome = true)
    (hsym : symbol ∈ DEFAULT_SYMBOLS) :
    ∃ p, get_latest_price sm symbol = some p
      ∧ (sm.tick_buffer symbol = some [] → p = 0)
      ∧ (∀ l t, sm.tick_buffer symbol = some l → l.getLast? = some t → p = t.price) := by
  have hs := hdom symbol hsym
  cases hbuf : sm.tick_buffer symbol with
  | none => rw [hbuf] at hs; simp at hs
  | some l =>
    cases hlast : l.getLast? with
    | none =>
      refine ⟨0, ?_, fun _ => rfl, ?_⟩
      · simp only [get_latest_price, hbuf, hlast]
      · intro l' t hl' ht
        obtain rfl : l = l' := Option.some.inj hl'
        rw [hlast] at ht
        cases ht
    | some t =>
      refine ⟨t.price, ?_, ?_, ?_⟩
      · simp only [get_latest_price, hbuf, hlast]
      · intro hemp
        obtain rfl : l = [] := Option.some.inj hemp
        simp at hlast
      · intro l' t' hl' ht'
        obtain rfl : l = l' := Option.some.inj hl'
        rw [hlast] at ht'
        exact congrArg Tick.price (Option.some.inj ht')

theorem c9_latest_price_configured_witness :
    ((∀ s ∈ DEFAULT_SYMBOLS, (sm_w9.tick_buffer s).isSome = true)
      ∧ "btcusdt" ∈ DEFAULT_SYMBOLS)
    ∧ ∃ p, get_latest_price sm_w9 "btcusdt" = some p
        ∧ (sm_w9.tick_buffer "btcusdt" = some [] → p = 0)
        ∧ (∀ l t, sm_w9.tick_buffer "btcusdt" = some l → l.getLast? = some t → p = t.price) :=
  ⟨⟨by decide, by decide⟩,
   c9_latest_price_configured sm_w9 "btcusdt" (by decide) (by decide)⟩

/-! ### Normalization: `src/normalization.py` -/

/-- A decoded JSON value (the result type of `json.loads`). -/
inductive JVal where
  | jstr : String → JVal
  | jnum : ℚ → JVal
  | jbool : Bool → JVal
  | jnull : JVal
  | jarr : List JVal → JVal
  | jobj : List (String × JVal) → JVal

/-- Dictionary field access: `data[k]` / `k in data`. -/
def getField (data : List (String × JVal)) (k : String) : Option JVal :=
  (data.find? (fun p => p.1 == k)).map (fun p => p.2)

/-- Numeric value of a digit string (base 10). -/
def digits_val (s : String) : ℚ :=
  ((s.toList.foldl (fun n c => 10 * n + (c.toNat - 48)) 0 : ℕ) : ℚ)

/-- Models Python `float(s)` on decimal string literals: optional sign and
digits with an optional decimal point.  (Exponent notation, surrounding
whitespace, underscores and inf/nan are abstracted as rejections.)
`none` models the `ValueError`. -/
def str_to_float (s : String) : Option ℚ :=
  let core : String → Option ℚ := fun body =>
    match body.splitOn "." with
    | [ip] =>
      if (ip.length != 0) && ip.all Char.isDigit then some (digits_val ip) else none
    | [ip, fp] =>
      if ((ip.length != 0) || (fp.length != 0)) && ip.all Char.isDigit && fp.all Char.isDigit
      then some (digits_val ip + digits_val fp / (10 : ℚ) ^ fp.length)
      else none
    | _ => none
  if s.startsWith "-" then (core (s.drop 1)).map (fun q => -q)
  else if s.startsWith "+" then core (s.drop 1)
  else core s

/-- Python `float(x)` on a decoded JSON value: numbers pass through,
booleans coerce (`float(True) == 1.0`), numeric strings parse; anything
else raises (`none`). -/
def py_float : JVal → Option ℚ
  | JVal.jnum q => some q
  | JVal.jbool b => some (if b then 1 else 0)
  | JVal.jstr s => str_to_float s
  | _ => none

/-- A JSON value usable in the arithmetic `ts_ms / 1000.0`: numbers and
booleans; anything else raises `TypeError` (`none`). -/
def py_num : JVal → Option ℚ
  | JVal.jnum q => some q
  | JVal.jbool b => some (if b then 1 else 0)
  | _ => none

/-- The trade-time selection of `Tick.from_binance_msg`: `data['T']` when
the event type is `aggTrade` (a missing `T` raises, caught below), else
`data['T']` when present (trade stream), else rejection. -/
def ts_field_of (data : List (String × JVal)) : Option JVal :=
  match getField data "e" with
  | some ev =>
    match ev with
    | JVal.jstr e => if e = "aggTrade" then getField data "T" else getField data "T"
    | _ => getField data "T"
  | none => getField data "T"

theorem ts_field_of_eq (data : List (String × JVal)) :
    ts_field_of data = getField data "T" := by
  unfold ts_field_of
  cases getField data "e" with
  | none => rfl
  | some ev => cases ev <;> simp

/-- `Tick.from_binance_msg`.  The argument is the outcome of `json.loads`
on the wire text (`none` when the text is not valid JSON).  Every failure
path — malformed structure, missing required field, wrong-typed field,
non-numeric price/quantity — is caught by the bare `except` and yields
`none`; no exception escapes and nothing is mutated. -/
def from_binance_msg (m : Option JVal) : Option Tick :=
  match m with
  | none => none
  | some (JVal.jobj data) =>
    match ts_field_of data with
    | none => none
    | some tsv =>
      match py_num tsv with
      | none => none
      | some ts_ms =>
        match getField data "s" with
        | some (JVal.jstr s) =>
          match getField data "p" with
          | some pv =>
            match py_float pv with
            | some price =>
              match getField data "q" with
              | some qv =>
                match py_float qv with
                | some size =>
                  some { symbol := s.toLower, timestamp := ts_ms / 1000,
                         price := price, size := size }
                | none => none
              | none => none
            | none => none
          | none => none
        | some _ => none
        | none => none
  | some _ => none

/-- C5: tick normalization is total and exception-free.  For every input
message (any `json.loads` outcome) `from_binance_msg` either returns the
rejection value, or returns a Tick whose symbol is the message's symbol
field case-folded to lowercase, whose price and size are the numeric
conversions of the price and quantity fields, and whose timestamp comes
from the epoch-millisecond trade time; in particular every malformed input
(invalid JSON, non-object message, missing required field, non-numeric
price or quantity) lands in the rejection branch, and the function — a
pure function of its input — has no side effects. -/
theorem c5_normalize_total (m : Option JVal) :
    from_binance_msg m = none
    ∨ ∃ (t : Tick) (data : List (String × JVal)) (raw : String)
        (tsv pv qv : JVal) (ts_ms : ℚ),
        from_binance_msg m = some t
        ∧ m = some (JVal.jobj data)
        ∧ getField data "T" = some tsv ∧ py_num tsv = some ts_ms
        ∧ t.timestamp = ts_ms / 1000
        ∧ getField data "s" = some (JVal.jstr raw)
        ∧ t.symbol = raw.toLower
        ∧ getField data "p" = some pv ∧ py_float pv = some t.price
        ∧ getField data "q" = some qv ∧ py_float qv = some t.size := by
  cases m with
  | none => exact Or.inl rfl
  | some v =>
    cases v with
    | jstr s => exact Or.inl rfl
    | jnum q => exact Or.inl rfl
    | jbool b => exact Or.inl rfl
    | jnull => exact Or.inl rfl
    | jarr l => exact Or.inl rfl
    | jobj data =>
      simp only [from_binance_msg, ts_field_of_eq]
      cases hT : getField data "T" with
      | none => exact Or.inl rfl
      | some tsv =>
        dsimp only
        cases hnum : py_num tsv with
        | none => exact Or.inl rfl
        | some ts_ms =>
          dsimp only
          cases hs : getField data "s" with
          | none => exact Or.inl rfl
          | some sv =>
            cases sv with
            | jnum q => exact Or.inl rfl
            | jbool b => exact Or.inl rfl
            | jnull => exact Or.inl rfl
            | jarr l => exact Or.inl rfl
            | jobj o => exact Or.inl rfl
            | jstr raw =>
              dsimp only
              cases hp : getField data "p" with
              | none => exact Or.inl rfl
              | some pv =>
                dsimp only
                cases hpf : py_float pv with
                | none => exact Or.inl rfl
                | some price =>
                  dsimp only
                  cases hq : getField data "q" with
                  | none => exact Or.inl rfl
                  | some qv =>
                    dsimp only
                    cases hqf : py_float qv with
                    | none => exact Or.inl rfl
                    | some size =>
                      exact Or.inr ⟨Tick.mk raw.toLower (ts_ms / 1000) price size,
                        data, raw, tsv, pv, qv, ts_ms,
                        rfl, rfl, hT, hnum, rfl, hs, rfl, hp, hpf, hq, hqf⟩
